import Mathlib

/-!
Verification development for the CodeMachine CLI process-execution core.

The definitions below are a shallow embedding of the TypeScript sources:
  * `src/unnamed/part_000`               — `spawnProcess` (Process Runner)
  * `src/unnamed/part_002`               — `runOpenCode` text pipeline, mediator loop callers
  * `src/unnamed/part_003`               — `buildOpenCodePermissionUpdate`
  * `src/.../kimi/execution/runner.ts`   — print/wire mode Stream Normalizer
Dynamic JSON values are modelled by `JVal`; JavaScript `undefined` is modelled
by `Option.none` and JavaScript `null` by `JVal.jnull`.  Number literals are
modelled as integers (the records handled by the claims carry integral token
counts only).
-/

namespace CodeMachine

/-- JSON value domain used by the duck-typed record handling in the source. -/
inductive JVal where
  | jnull : JVal
  | jbool (b : Bool) : JVal
  | jnum (n : Int) : JVal
  | jstr (s : String) : JVal
  | jarr (items : List JVal) : JVal
  | jobj (fields : List (String × JVal)) : JVal
deriving Repr

/-- Boolean equality on `JVal` (structural). -/
def jeq : JVal → JVal → Bool
  | .jnull, .jnull => true
  | .jbool a, .jbool b => a == b
  | .jnum a, .jnum b => a == b
  | .jstr a, .jstr b => a == b
  | .jarr a, .jarr b => jeqArr a b
  | .jobj a, .jobj b => jeqObj a b
  | _, _ => false
where
  jeqArr : List JVal → List JVal → Bool
    | [], [] => true
    | x :: xs, y :: ys => jeq x y && jeqArr xs ys
    | _, _ => false
  jeqObj : List (String × JVal) → List (String × JVal) → Bool
    | [], [] => true
    | (k, v) :: xs, (k2, v2) :: ys => k == k2 && jeq v v2 && jeqObj xs ys
    | _, _ => false

/-- JavaScript truthiness on the JSON domain. -/
def jsTruthy : JVal → Bool
  | .jnull => false
  | .jbool b => b
  | .jnum n => !(n == 0)
  | .jstr s => !(s == "")
  | .jarr _ => true
  | .jobj _ => true

/-- First binding for a key in a JS-object field list. -/
def lookupField : List (String × JVal) → String → Option JVal
  | [], _ => none
  | (k, v) :: rest, key => if k = key then some v else lookupField rest key

/-- JS property assignment `obj[k] = v`: overwrite in place, else append. -/
def setField : List (String × JVal) → String → JVal → List (String × JVal)
  | [], key, v => [(key, v)]
  | (k, w) :: rest, key, v =>
      if k = key then (key, v) :: rest else (k, w) :: setField rest key v

/-- Property access `obj.k`; `none` models JS `undefined`. -/
def jsGet (v : JVal) (k : String) : Option JVal :=
  match v with
  | .jobj fs => lookupField fs k
  | _ => none

/-- Embedding of `a ?? b` over possibly-undefined JS values: `none` is `undefined`,
`some .jnull` is `null`; both are nullish. -/
def jvOr (a b : Option JVal) : Option JVal :=
  match a with
  | none => b
  | some .jnull => b
  | some v => some v

/-- Embedding of `asString` helper shared by the runner sources. -/
def asString : Option JVal → Option String
  | some (.jstr s) => some s
  | _ => none

/-- Embedding of `asNumber` helper of the Kimi runner. -/
def asNumber : Option JVal → Option Int
  | some (.jnum n) => some n
  | _ => none

/-- Embedding of `asArray` helper of the Kimi runner. -/
def asArray : Option JVal → Option (List JVal)
  | some (.jarr items) => some items
  | _ => none

/-- Embedding of `asObject` of the Kimi runner: `value && typeof value === 'object'`.
JS arrays satisfy the check, `null` fails truthiness. -/
def asObjectK : Option JVal → Option JVal
  | some (.jobj fs) => some (.jobj fs)
  | some (.jarr items) => some (.jarr items)
  | _ => none

/-- Embedding of `asRecord` of the OpenCode runner: objects only, arrays excluded. -/
def asRecord : Option JVal → Option (List (String × JVal))
  | some (.jobj fs) => some fs
  | _ => none

/-! ## JSON parsing (`JSON.parse`) -/

/-- JSON insignificant whitespace. -/
def isJsonWs (c : Char) : Bool :=
  c = ' ' || c = '\t' || c = '\n' || c = '\r'

/-- Drop leading JSON whitespace. -/
def skipWs : List Char → List Char
  | [] => []
  | c :: cs => if isJsonWs c then skipWs cs else c :: cs

/-- Parse the body of a JSON string after the opening quote. -/
def parseStrChars : List Char → Option (List Char × List Char)
  | [] => none
  | '"' :: rest => some ([], rest)
  | '\\' :: 'n' :: rest =>
      (parseStrChars rest).map fun p => ('\n' :: p.1, p.2)
  | '\\' :: 't' :: rest =>
      (parseStrChars rest).map fun p => ('\t' :: p.1, p.2)
  | '\\' :: 'r' :: rest =>
      (parseStrChars rest).map fun p => ('\r' :: p.1, p.2)
  | '\\' :: 'b' :: rest =>
      (parseStrChars rest).map fun p => (Char.ofNat 8 :: p.1, p.2)
  | '\\' :: 'f' :: rest =>
      (parseStrChars rest).map fun p => (Char.ofNat 12 :: p.1, p.2)
  | '\\' :: '"' :: rest =>
      (parseStrChars rest).map fun p => ('"' :: p.1, p.2)
  | '\\' :: '\\' :: rest =>
      (parseStrChars rest).map fun p => ('\\' :: p.1, p.2)
  | '\\' :: '/' :: rest =>
      (parseStrChars rest).map fun p => ('/' :: p.1, p.2)
  | '\\' :: _ :: _ => none
  | c :: rest =>
      if c.toNat < 32 then none
      else (parseStrChars rest).map fun p => (c :: p.1, p.2)

/-- Read a run of decimal digits. -/
def digitsToNat (acc : Nat) : List Char → Nat × List Char
  | [] => (acc, [])
  | c :: cs =>
      if c.isDigit then digitsToNat (acc * 10 + (c.toNat - 48)) cs
      else (acc, c :: cs)

/-- Parse a non-negative integral JSON number (fractions/exponents are outside
the modelled domain and fail). -/
def parseNatNum : List Char → Option (Nat × List Char)
  | [] => none
  | c :: cs =>
      if c.isDigit then
        match digitsToNat 0 (c :: cs) with
        | (_, '.' :: _) => none
        | (_, 'e' :: _) => none
        | (_, 'E' :: _) => none
        | (n, rest) => some (n, rest)
      else none

/-- Parse a JSON number with optional sign. -/
def parseNumber : List Char → Option (JVal × List Char)
  | '-' :: rest => (parseNatNum rest).map fun p => (.jnum (-(p.1 : Int)), p.2)
  | cs => (parseNatNum cs).map fun p => (.jnum ((p.1 : Int)), p.2)

mutual

/-- Fuel-indexed JSON value parser. -/
def parseJVal : Nat → List Char → Option (JVal × List Char)
  | 0, _ => none
  | Nat.succ fuel, cs =>
      match skipWs cs with
      | 'n' :: 'u' :: 'l' :: 'l' :: r => some (.jnull, r)
      | 't' :: 'r' :: 'u' :: 'e' :: r => some (.jbool true, r)
      | 'f' :: 'a' :: 'l' :: 's' :: 'e' :: r => some (.jbool false, r)
      | '"' :: r => (parseStrChars r).map fun p => (.jstr (String.mk p.1), p.2)
      | '{' :: r =>
          (match skipWs r with
           | '}' :: r2 => some (.jobj [], r2)
           | r2 => (parseMembers fuel r2 []).map fun p => (.jobj p.1, p.2))
      | '[' :: r =>
          (match skipWs r with
           | ']' :: r2 => some (.jarr [], r2)
           | r2 => (parseItems fuel r2 []).map fun p => (.jarr p.1, p.2))
      | r => parseNumber r

/-- Parse the members of a JSON object (duplicate keys: last wins, as in JS). -/
def parseMembers : Nat → List Char → List (String × JVal) →
    Option (List (String × JVal) × List Char)
  | 0, _, _ => none
  | Nat.succ fuel, cs, acc =>
      match skipWs cs with
      | '"' :: r =>
          match parseStrChars r with
          | none => none
          | some (keyChars, r2) =>
              match skipWs r2 with
              | ':' :: r3 =>
                  match parseJVal fuel r3 with
                  | none => none
                  | some (v, r4) =>
                      let acc2 := setField acc (String.mk keyChars) v
                      match skipWs r4 with
                      | ',' :: r5 => parseMembers fuel r5 acc2
                      | '}' :: r5 => some (acc2, r5)
                      | _ => none
              | _ => none
      | _ => none

/-- Parse the items of a JSON array. -/
def parseItems : Nat → List Char → List JVal → Option (List JVal × List Char)
  | 0, _, _ => none
  | Nat.succ fuel, cs, acc =>
      match parseJVal fuel cs with
      | none => none
      | some (v, r) =>
          match skipWs r with
          | ',' :: r2 => parseItems fuel r2 (acc ++ [v])
          | ']' :: r2 => some (acc ++ [v], r2)
          | _ => none

end

/-- Embedding of `JSON.parse`: parse a complete JSON document, allowing only trailing
whitespace; wraps array member lists into `JVal`. -/
def jsonParse (s : String) : Option JVal :=
  match parseJVal (s.length + 1) s.toList with
  | some (.jobj fs, rest) =>
      if (skipWs rest).isEmpty then some (.jobj fs) else none
  | some (v, rest) => if (skipWs rest).isEmpty then some v else none
  | none => none

/-! ## JSON serialization (`JSON.stringify`) -/

/-- One hexadecimal digit. -/
def hexDigit (n : Nat) : Char :=
  if n < 10 then Char.ofNat (48 + n) else Char.ofNat (87 + n)

/-- Escape one character as `JSON.stringify` does. -/
def escapeChar (c : Char) : String :=
  if c = '"' then "\\\""
  else if c = '\\' then "\\\\"
  else if c = '\n' then "\\n"
  else if c = '\t' then "\\t"
  else if c = '\r' then "\\r"
  else if c.toNat = 8 then "\\b"
  else if c.toNat = 12 then "\\f"
  else if c.toNat < 32 then
    String.mk ['\\', 'u', '0', '0', hexDigit (c.toNat / 16), hexDigit (c.toNat % 16)]
  else String.singleton c

/-- Serialize a string literal with quotes. -/
def escapeString (s : String) : String :=
  "\"" ++ String.join (s.toList.map escapeChar) ++ "\""

mutual

/-- Embedding of `JSON.stringify` on the modelled JSON domain (insertion order preserved,
no added whitespace). -/
def jsonStringify : JVal → String
  | .jnull => "null"
  | .jbool true => "true"
  | .jbool false => "false"
  | .jnum n => toString n
  | .jstr s => escapeString s
  | .jarr items => "[" ++ stringifyItems items ++ "]"
  | .jobj fields => "\x7b" ++ stringifyFields fields ++ "\x7d"

/-- Comma-joined array items. -/
def stringifyItems : List JVal → String
  | [] => ""
  | [x] => jsonStringify x
  | x :: xs => jsonStringify x ++ "," ++ stringifyItems xs

/-- Comma-joined object members. -/
def stringifyFields : List (String × JVal) → String
  | [] => ""
  | [(k, v)] => escapeString k ++ ":" ++ jsonStringify v
  | (k, v) :: xs => escapeString k ++ ":" ++ jsonStringify v ++ "," ++ stringifyFields xs

end

/-! ## String utilities mirroring the JS operations used by the runners -/

/-- JS whitespace (the characters relevant to `String.prototype.trim` here). -/
def jsWsChar (c : Char) : Bool :=
  isJsonWs c || c.toNat = 11 || c.toNat = 12 || c.toNat = 160

/-- Embedding of `String.prototype.trim`. -/
def jsTrim (s : String) : String :=
  String.mk (((s.toList.dropWhile jsWsChar).reverse.dropWhile jsWsChar).reverse)

/-- Split a character list on newline characters (JS `split('\n')`). -/
def splitNlChars : List Char → List (List Char)
  | [] => [[]]
  | '\n' :: rest => [] :: splitNlChars rest
  | c :: rest =>
      match splitNlChars rest with
      | [] => [[c]]
      | l :: ls => (c :: l) :: ls

/-- JS `chunk.split('\n')`. -/
def jsSplitNl (s : String) : List String :=
  (splitNlChars s.toList).map String.mk

/-- Does the string end with a newline? -/
def endsWithNl (s : String) : Bool :=
  match s.toList.getLast? with
  | some '\n' => true
  | _ => false

/-- The recurring JS idiom `s.endsWith('\n') ? s : s + '\n'`. -/
def ensureNl (s : String) : String :=
  if endsWithNl s then s else s ++ "\n"

/-- Is `pat` a leading segment of `l`? -/
def leadsChars : List Char → List Char → Bool
  | [], _ => true
  | _ :: _, [] => false
  | p :: ps, c :: cs => p == c && leadsChars ps cs

/-- Substring containment on character lists. -/
def containsChars (hay pat : List Char) : Bool :=
  match hay with
  | [] => leadsChars pat []
  | _ :: rest => leadsChars pat hay || containsChars rest pat

/-- Substring containment (JS `String.prototype.includes`). -/
def containsSub (hay pat : String) : Bool :=
  containsChars hay.toList pat.toList

/-- The two sequential replacements `replace(/\r\n/g,'\n').replace(/\r/g,'\n')`
performed by both runners' `normalizeChunk`. -/
def normCRLF : List Char → List Char
  | [] => []
  | '\r' :: '\n' :: rest => '\n' :: normCRLF rest
  | '\r' :: rest => '\n' :: normCRLF rest
  | c :: rest => c :: normCRLF rest

/-- Embedding of `normalizeChunk` of the Kimi runner for `plainLogs = false` (the setting of
every claim): line endings are normalized to `\n`.  The `plainLogs = true`
ANSI-stripping branch is not modelled. -/
def normalizeChunkKimi (chunk : String) : String :=
  String.mk (normCRLF chunk.toList)

/-! ## Output markers

The formatter module (`shared/formatters/outputMarkers.js`) is not part of the
provided sources; only its call sites and unit-test expectations are.  The
next four definitions are therefore modelled, not translated. -/

/-- Modelled from the spec: `formatStatus` of the missing
`shared/formatters/outputMarkers.js` produces a status line that carries the
given message after a colour marker (the tests match on the message text and
`applyPrefix` recognises markers such as `[GRAY]`). -/
def formatStatus (s : String) : String := "[GRAY]" ++ s

/-- Modelled from the spec: `formatCommand` of the missing formatter module
renders a tool-invocation header carrying the tool name (the unit tests expect
a substring `Command: <name>`), with an error/success colour marker. -/
def formatCommand (name status : String) : String :=
  (if status = "error" then "[RED]" else "[GREEN]") ++ "Command: " ++ name

/-- Modelled from the spec: `formatResult` of the missing formatter module
renders a result preview line (the unit tests expect `⎿ <text>`). -/
def formatResult (s : String) (_isError : Bool) : String := "⎿ " ++ s

/-- Modelled from the spec: `formatThinking` of the missing formatter module
annotates assistant "thinking" text. -/
def formatThinking (s : String) : String := "[GRAY]Thinking: " ++ s

/-! ## Kimi print-mode Stream Normalizer
(`src/src/infra/engines/providers/kimi/execution/runner.ts`) -/

/-- Embedding of `KimiUsageSnapshot` (runner.ts lines 13-17). -/
structure KimiUsageSnapshot where
  tokensIn : Option Int := none
  tokensOut : Option Int := none
  cached : Option Int := none
deriving Repr, DecidableEq

/-- One observable callback issued by the Kimi runner hooks. -/
inductive KimiOut where
  | data (s : String)
  | errData (s : String)
  | usage (u : KimiUsageSnapshot)
deriving Repr, DecidableEq

/-- Embedding of `emitUsageSnapshot` (runner.ts lines 165-199): the list of snapshots passed
to `onUsageSnapshot` (empty or a singleton). -/
def emitUsageSnapshot (payload : Option JVal) : List KimiUsageSnapshot :=
  match payload with
  | none => []
  | some p =>
    if !jsTruthy p then []
    else
      let rawTokens :=
        jvOr (jsGet p "token_count")
          (jvOr (jsGet p "usage") (jvOr (jsGet p "context_usage") (jsGet p "tokens")))
      match rawTokens with
      | none => []
      | some (.jnum n) => [{ tokensIn := some n }]
      | some rt =>
          match asObjectK (some rt) with
          | none => []
          | some t =>
              let tokensIn :=
                asNumber (jsGet t "total") <|> asNumber (jsGet t "input") <|>
                  asNumber (jsGet t "prompt") <|> asNumber (jsGet t "request")
              let tokensOut :=
                asNumber (jsGet t "output") <|> asNumber (jsGet t "completion") <|>
                  asNumber (jsGet t "response")
              let cached :=
                asNumber (jsGet t "cached") <|> asNumber (jsGet t "cache") <|>
                  asNumber (jsGet t "cached_input")
              [{ tokensIn := tokensIn, tokensOut := tokensOut, cached := cached }]

/-- Embedding of `emitAssistantContent` (runner.ts lines 94-135): the `onData` writes. -/
def emitAssistantContent (payload : Option JVal) : List KimiOut :=
  match payload with
  | none => []
  | some p =>
    if !jsTruthy p then []
    else
      match asArray (jsGet p "parts") <|> asArray (jsGet p "content") with
      | some parts =>
          let collected := parts.foldl
            (fun (acc : List String × List String) part =>
              if !jsTruthy part then acc
              else
                match part with
                | .jstr s => (acc.1 ++ [s], acc.2)
                | frag =>
                    match asString (jsGet frag "type"), asString (jsGet frag "text") with
                    | some "text", some t =>
                        if t ≠ "" then (acc.1 ++ [t], acc.2) else acc
                    | some "thinking", some t =>
                        if t ≠ "" then (acc.1, acc.2 ++ [t]) else acc
                    | _, _ => acc)
            ([], [])
          (if collected.2.length > 0 then
             [KimiOut.data (formatThinking (String.join collected.2) ++ "\n")]
           else []) ++
          (if collected.1.length > 0 then
             [KimiOut.data (ensureNl (String.join collected.1))]
           else [])
      | none =>
          match asString (jsGet p "text") with
          | some t => if t ≠ "" then [KimiOut.data (ensureNl t)] else []
          | none => []

/-- Embedding of `emitToolMessage` (runner.ts lines 137-163). -/
def emitToolMessage (payload : Option JVal) : List KimiOut :=
  let truthyPayload : Option JVal :=
    match payload with
    | some p => if jsTruthy p then some p else none
    | none => none
  let toolName :=
    (match truthyPayload with
     | some p => asString (jsGet p "name") <|> asString (jsGet p "tool_name")
     | none => none).getD "tool"
  let isErr : Bool :=
    (match truthyPayload with
     | some p => asString (jsGet p "status") == some "error"
     | none => false) ||
    (match payload with
     | some p =>
         match jsGet p "is_error" with
         | some (.jbool true) => true
         | _ => false
     | none => false)
  let status := if isErr then "error" else "success"
  let contentArray :=
    match truthyPayload with
    | some p => asArray (jsGet p "content")
    | none => none
  let content : String :=
    match contentArray with
    | some items =>
        String.intercalate "\n"
          (items.map fun item =>
            match item with
            | .jstr s => s
            | v => jsonStringify v)
    | none =>
        match truthyPayload with
        | some p =>
            ((asString (jsGet p "content") <|> asString (jsGet p "output") <|>
               asString (jsGet p "text")).getD "")
        | none => ""
  let trimmed := jsTrim content
  let preview :=
    if trimmed.length > 200 then String.mk (trimmed.toList.take 200) ++ "..." else trimmed
  let message :=
    formatCommand toolName status ++
      (if preview ≠ "" then "\n" ++ formatResult preview isErr else "")
  [KimiOut.data (message ++ "\n")]

/-- Embedding of `emitCheckpoint` (runner.ts lines 201-205). -/
def emitCheckpoint (payload : Option JVal) : List KimiOut :=
  let id :=
    match payload with
    | some p => if jsTruthy p then asString (jsGet p "id") <|> asString (jsGet p "checkpoint_id") else none
    | none => none
  let label :=
    match id with
    | some s => if s ≠ "" then "Checkpoint " ++ s else "Checkpoint reached"
    | none => "Checkpoint reached"
  [KimiOut.data (formatStatus label ++ "\n")]

/-- The `onStdout` handler of `runKimiPrint` (runner.ts lines 245-274), with
`plainLogs = false`: each received chunk is split on newlines and every line —
including a trailing partial one — is parsed immediately; there is no
cross-chunk buffer. -/
def kimiPrintChunk (chunk : String) : List KimiOut :=
  let normalized := normalizeChunkKimi chunk
  let lines := jsSplitNl normalized
  lines.foldl
    (fun acc rawLine =>
      let line := jsTrim rawLine
      if line = "" then acc
      else
        match jsonParse line with
        | some json =>
            acc ++
              (match asString (jsGet json "role") with
               | some "assistant" => emitAssistantContent (some json)
               | some "tool" => emitToolMessage (some json)
               | some "_usage" => (emitUsageSnapshot (some json)).map KimiOut.usage
               | some "_checkpoint" => emitCheckpoint (some json)
               | _ => [])
        | none => acc ++ [KimiOut.data (ensureNl rawLine)])
    []

/-! ## Process Runner: `spawnProcess` (src/unnamed/part_000)

The promise body of `spawnProcess` installs a set of handlers (timeout timer,
abort listener, child `error` and `close` events).  We model one invocation as
a state machine consuming the sequence of handler activations the runtime
delivers; each step is a direct translation of the corresponding handler. -/

/-- Embedding of `SpawnResult` (part_000 lines 19-23). -/
structure SpawnResult where
  exitCode : Int
  stdout : String
  stderr : String
deriving Repr, DecidableEq

/-- A JS `Error` as far as the runner inspects it. -/
structure SpawnErr where
  name : String
  message : String
deriving Repr, DecidableEq

/-- Settlement of the promise returned by `spawnProcess`. -/
inductive SpawnOutcome where
  | resolved (r : SpawnResult)
  | rejected (e : SpawnErr)
deriving Repr, DecidableEq

/-- One handler activation delivered by the runtime to the handlers installed
by `spawnProcess`. -/
inductive SpawnEvent where
  | stdoutData (s : String)
  | stderrData (s : String)
  | timerFire
  | abortFire
  | errorEvt (e : SpawnErr)
  | closeEvt (code : Option Int)
deriving Repr, DecidableEq

/-- The mutable state captured by the `spawnProcess` promise body. -/
structure SpawnState where
  outcome : Option SpawnOutcome
  timedOut : Bool
  timeoutError : Option SpawnErr
  childKilled : Bool
  inRegistry : Bool
  timerActive : Bool
  timeoutMs : Nat
  stdoutChunks : List String
  stderrChunks : List String
deriving Repr, DecidableEq

/-- State right after spawn (part_000 lines 70-146): the child is tracked in
`activeProcesses`, and the timer is armed iff a positive timeout is given. -/
def spawnInit (timeoutMs : Option Nat) : SpawnState :=
  { outcome := none
    timedOut := false
    timeoutError := none
    childKilled := false
    inRegistry := true
    timerActive := match timeoutMs with | some t => decide (0 < t) | none => false
    timeoutMs := timeoutMs.getD 0
    stdoutChunks := []
    stderrChunks := [] }

/-- Embedding of `resolveOnce` (part_000 lines 72-76). -/
def resolveOnce (s : SpawnState) (r : SpawnResult) : SpawnState :=
  if s.outcome.isSome then s else { s with outcome := some (.resolved r) }

/-- Embedding of `rejectOnce` (part_000 lines 77-81). -/
def rejectOnce (s : SpawnState) (e : SpawnErr) : SpawnState :=
  if s.outcome.isSome then s else { s with outcome := some (.rejected e) }

/-- One handler activation (part_000: timer lines 127-146, abort 149-167,
stream data 189-203, `error` 205-210, `close` 212-226). -/
def spawnStep (s : SpawnState) (e : SpawnEvent) : SpawnState :=
  match e with
  | .stdoutData d => { s with stdoutChunks := s.stdoutChunks ++ [d] }
  | .stderrData d => { s with stderrChunks := s.stderrChunks ++ [d] }
  | .timerFire =>
      if !s.timerActive then s
      else if s.childKilled then s
      else
        { s with
            timedOut := true
            timeoutError := some
              { name := "TimeoutError"
                message := "Process timed out after " ++ toString s.timeoutMs ++ "ms" }
            childKilled := true }
  | .abortFire => if s.childKilled then s else { s with childKilled := true }
  | .errorEvt err =>
      rejectOnce { s with inRegistry := false, timerActive := false } err
  | .closeEvt code =>
      if s.timedOut then
        match s.timeoutError with
        | some te => rejectOnce { s with inRegistry := false, timerActive := false } te
        | none =>
            resolveOnce { s with inRegistry := false, timerActive := false }
              { exitCode := code.getD 0
                stdout := String.join s.stdoutChunks
                stderr := String.join s.stderrChunks }
      else
        resolveOnce { s with inRegistry := false, timerActive := false }
          { exitCode := code.getD 0
            stdout := String.join s.stdoutChunks
            stderr := String.join s.stderrChunks }

/-- Run one `spawnProcess` invocation over a sequence of handler activations. -/
def runSpawn (timeoutMs : Option Nat) (events : List SpawnEvent) : SpawnState :=
  events.foldl spawnStep (spawnInit timeoutMs)

/-! ## Kimi wire-mode Stream Normalizer (runner.ts lines 300-579) -/

/-- Observable effects plus `WireState.toolNames` of one wire session. -/
structure WireEff where
  dataOut : List String := []
  errOut : List String := []
  stdinWrites : List String := []
  usageOut : List KimiUsageSnapshot := []
  toolNames : List (String × String) := []
deriving Repr, DecidableEq

/-- Embedding of `Map.set` on the pending-tool-call map. -/
def tnSet (l : List (String × String)) (k v : String) : List (String × String) :=
  match l with
  | [] => [(k, v)]
  | (k2, v2) :: rest => if k2 = k then (k, v) :: rest else (k2, v2) :: tnSet rest k v

/-- Embedding of `Map.get` on the pending-tool-call map. -/
def tnGet : List (String × String) → String → Option String
  | [], _ => none
  | (k2, v) :: rest, k => if k2 = k then some v else tnGet rest k

/-- Embedding of `Map.delete` on the pending-tool-call map. -/
def tnDel (l : List (String × String)) (k : String) : List (String × String) :=
  l.filter fun kv => kv.1 ≠ k

/-- Colour markers recognised by `applyPrefix` (runner.ts line 311). -/
def colourMarkers : List String := ["[GRAY]", "[GREEN]", "[RED]", "[ORANGE]", "[CYAN]"]

/-- Embedding of `applyPrefix` (runner.ts lines 306-317). -/
def applyPfx (text : String) (pfx : Option String) : String :=
  match pfx with
  | none => text
  | some p =>
      match colourMarkers.find? (fun m => leadsChars m.toList text.toList) with
      | some m => m ++ p ++ ": " ++ String.mk (text.toList.drop m.length)
      | none => p ++ ": " ++ text

/-- Embedding of `String.prototype.slice(0, n)`. -/
def jsSlice (s : String) (n : Nat) : String :=
  String.mk (s.toList.take n)

/-- Embedding of `handleWireEvent` (runner.ts lines 319-414).  The `fuel` argument bounds
the `subagent_event` recursion depth; called with the size of the parsed
record it behaves exactly as the unbounded TS recursion. -/
def handleWireEvent : Nat → Option JVal → Option String → WireEff → WireEff
  | 0, _, _, st => st
  | Nat.succ fuel, eventInput, pfx, st =>
    match eventInput with
    | none => st
    | some ev =>
      if !jsTruthy ev then st
      else
        match asString (jsGet ev "type") with
        | none => st
        | some ty =>
          if ty = "" then st
          else if ty = "content_part" then
            let text := asString (jsGet ev "text") <|> asString (jsGet ev "content")
            match text with
            | some t =>
                if t ≠ "" then
                  { st with dataOut := st.dataOut ++ [applyPfx (ensureNl t) pfx] }
                else
                  let contentType := (asString (jsGet ev "content_type")).getD "content"
                  let preview :=
                    jsSlice (jsonStringify ((asObjectK (jsGet ev "data")).getD ev)) 120
                  { st with dataOut := st.dataOut ++
                      [applyPfx (formatStatus ("Kimi emitted " ++ contentType ++ ": " ++ preview) ++ "\n") pfx] }
            | none =>
                let contentType := (asString (jsGet ev "content_type")).getD "content"
                let preview :=
                  jsSlice (jsonStringify ((asObjectK (jsGet ev "data")).getD ev)) 120
                { st with dataOut := st.dataOut ++
                    [applyPfx (formatStatus ("Kimi emitted " ++ contentType ++ ": " ++ preview) ++ "\n") pfx] }
          else if ty = "tool_call" then
            let toolName :=
              (asString (jsGet ev "name") <|> asString (jsGet ev "tool_name")).getD "tool"
            let st2 :=
              match asString (jsGet ev "id") with
              | some i => if i ≠ "" then { st with toolNames := tnSet st.toolNames i toolName } else st
              | none => st
            { st2 with dataOut := st2.dataOut ++
                [applyPfx (formatCommand toolName "started" ++ "\n") pfx] }
          else if ty = "tool_call_part" then
            let idOpt := asString (jsGet ev "id")
            let toolName :=
              (asString (jsGet ev "name") <|> asString (jsGet ev "tool_name") <|>
                (match idOpt with
                 | some i => if i ≠ "" then tnGet st.toolNames i else none
                 | none => none)).getD "tool"
            let preview :=
              (asString (jsGet ev "preview")).getD
                (jsSlice (jsonStringify ((asObjectK (jsGet ev "input")).getD (.jobj []))) 120)
            let chunk :=
              formatCommand toolName "started" ++
                (if preview ≠ "" then "\n" ++ formatResult preview false else "") ++ "\n"
            { st with dataOut := st.dataOut ++ [applyPfx chunk pfx] }
          else if ty = "tool_result" then
            let idOpt := asString (jsGet ev "id")
            let fromMap : Option String :=
              match idOpt with
              | none => none
              | some "" => some ""
              | some i => tnGet st.toolNames i
            let toolName := (fromMap <|> asString (jsGet ev "name")).getD "tool"
            let isError :=
              (asString (jsGet ev "status") == some "error") ||
                (match jsGet ev "is_error" with
                 | some (.jbool true) => true
                 | _ => false)
            let preview :=
              ((asString (jsGet ev "output")).map jsTrim <|>
                 (asString (jsGet ev "text")).map jsTrim <|>
                 (asString (jsGet ev "content")).map jsTrim).getD
                (match asObjectK (jsGet ev "output") with
                 | some o => jsSlice (jsonStringify o) 200
                 | none => "")
            let message :=
              formatCommand toolName (if isError then "error" else "success") ++
                (if preview ≠ "" then "\n" ++ formatResult preview isError else "")
            let st2 := { st with dataOut := st.dataOut ++ [applyPfx (message ++ "\n") pfx] }
            match idOpt with
            | some i => if i ≠ "" then { st2 with toolNames := tnDel st2.toolNames i } else st2
            | none => st2
          else if ty = "status_update" then
            let st2 :=
              match asString (jsGet ev "message") with
              | some m =>
                  if m ≠ "" then
                    { st with dataOut := st.dataOut ++ [applyPfx (formatStatus m ++ "\n") pfx] }
                  else st
              | none => st
            { st2 with usageOut := st2.usageOut ++
                emitUsageSnapshot (asObjectK (jsGet ev "context_usage") <|> asObjectK (jsGet ev "usage")) }
          else if ty = "step_begin" then
            { st with dataOut := st.dataOut ++
                [applyPfx (formatStatus "Kimi started a new step" ++ "\n") pfx] }
          else if ty = "step_interrupted" then
            { st with dataOut := st.dataOut ++
                [applyPfx (formatStatus "Kimi interrupted the current step" ++ "\n") pfx] }
          else if ty = "compaction_begin" then
            { st with dataOut := st.dataOut ++
                [applyPfx (formatStatus "Kimi is compacting the transcript" ++ "\n") pfx] }
          else if ty = "compaction_end" then
            { st with dataOut := st.dataOut ++
                [applyPfx (formatStatus "Kimi finished compaction" ++ "\n") pfx] }
          else if ty = "subagent_event" then
            let taskId :=
              match jsGet ev "task_tool_call_id" with
              | some (.jstr s) => some s
              | some (.jnum n) => some (toString n)
              | _ => none
            let label :=
              match taskId with
              | some i => if i ≠ "" then "Subagent " ++ i else "Subagent"
              | none => "Subagent"
            match asObjectK (jsGet ev "event") with
            | some nested => handleWireEvent fuel (some nested) (some label) st
            | none => st
          else st

/-- Embedding of `autoApproveRequest` (runner.ts lines 416-441); `stdinOpen` models
`child?.stdin && !child.stdin.destroyed`. -/
def autoApproveRequest (id : String) (params : Option JVal) (stdinOpen : Bool)
    (st : WireEff) : WireEff :=
  if !stdinOpen then st
  else
    let fromParams : Option String :=
      match params with
      | some p =>
          if jsTruthy p then asString (jsGet p "title") <|> asString (jsGet p "message")
          else none
      | none => none
    let fromRequest : Option String :=
      match (match params with | some p => asObjectK (jsGet p "request") | none => none) with
      | some req => asString (jsGet req "title") <|> asString (jsGet req "message")
      | none => none
    let title := (fromParams <|> fromRequest).getD "Kimi approval"
    let response : JVal :=
      .jobj [("jsonrpc", .jstr "2.0"), ("id", .jstr id),
             ("result", .jobj [("approved", .jbool true), ("action", .jstr "approve")])]
    { st with
        dataOut := st.dataOut ++ [formatStatus ("Auto-approved: " ++ title) ++ "\n"]
        stdinWrites := st.stdinWrites ++ [jsonStringify response ++ "\n"] }

mutual

/-- Size of a JSON value, used as recursion fuel for `handleWireEvent`. -/
def jsize : JVal → Nat
  | .jnull => 1
  | .jbool _ => 1
  | .jnum _ => 1
  | .jstr _ => 1
  | .jarr items => 1 + jsizeItems items
  | .jobj fields => 1 + jsizeFields fields

/-- Size of an array body. -/
def jsizeItems : List JVal → Nat
  | [] => 0
  | v :: rest => jsize v + jsizeItems rest

/-- Size of an object body. -/
def jsizeFields : List (String × JVal) → Nat
  | [] => 0
  | (_, v) :: rest => jsize v + jsizeFields rest

end

/-- Embedding of `processLine` of `runKimiWire` (runner.ts lines 492-517). -/
def wireProcessLine (runRequestId : String) (stdinOpen : Bool) (st : WireEff)
    (line : String) : WireEff :=
  if line = "" then st
  else
    match jsonParse line with
    | none => { st with errOut := st.errOut ++ [ensureNl line] }
    | some json =>
        let method := asString (jsGet json "method")
        let id := asString (jsGet json "id")
        let params := asObjectK (jsGet json "params")
        let error := asObjectK (jsGet json "error")
        if method == some "event" && params.isSome then
          handleWireEvent (jsize json)
            (match params with
             | some ps => asObjectK (jsGet ps "event")
             | none => none) none st
        else if method == some "request" &&
            (match id with | some i => !(i == "") | none => false) then
          autoApproveRequest (id.getD "") params stdinOpen st
        else if id == some runRequestId && error.isSome then
          let msg :=
            (match error with
             | some e => asString (jsGet e "message")
             | none => none).getD "Unknown wire error"
          { st with errOut := st.errOut ++
              [formatCommand "Kimi Error" "error" ++ "\n" ++ formatResult msg true ++ "\n"] }
        else if method == some "status_update" then
          let merged :=
            match params with
            | some (.jobj fs) =>
                fs.foldl (fun acc kv => setField acc kv.1 kv.2)
                  [("type", JVal.jstr "status_update")]
            | _ => [("type", JVal.jstr "status_update")]
          handleWireEvent (jsize json + 1) (some (.jobj merged)) none st
        else if error.isSome then
          let msg :=
            (match error with
             | some e => asString (jsGet e "message")
             | none => none).getD "Unknown error"
          { st with errOut := st.errOut ++
              [formatCommand "Kimi Error" "error" ++ "\n" ++ formatResult msg true ++ "\n"] }
        else st

/-! ## OpenCode permission policy builder (src/unnamed/part_003) -/

/-- Embedding of `PermissionRequestContext` (src/unnamed/part_000 lines 229-238), restricted
to the fields the policy builder reads.  `pattern` is `string | string[]` and
`metadata` a free-form record; both are modelled in the JSON domain. -/
structure PermissionRequestContext where
  engine : String := ""
  capability : Option String := none
  pattern : Option JVal := none
  metadata : Option JVal := none
deriving Repr

/-- An environment mapping (`NodeJS.ProcessEnv`). -/
abbrev Env := List (String × String)

/-- Lookup in an environment mapping. -/
def envLookup : Env → String → Option String
  | [], _ => none
  | (k, v) :: rest, key => if k = key then some v else envLookup rest key

/-- JS object-spread assignment for environments: overwrite or append. -/
def envSet : Env → String → String → Env
  | [], key, v => [(key, v)]
  | (k, w) :: rest, key, v =>
      if k = key then (key, v) :: rest else (k, w) :: envSet rest key v

/-- Embedding of `{ ...a, ...b }` on environments. -/
def envSpread (a b : Env) : Env :=
  b.foldl (fun acc kv => envSet acc kv.1 kv.2) a

/-- Embedding of `parsePolicy` (part_003 lines 8-19). -/
def parsePolicy (raw : Option String) : List (String × JVal) :=
  match raw with
  | none => []
  | some s =>
      if s = "" then []
      else
        match jsonParse s with
        | some (.jobj fs) => fs
        | _ => []

/-- Embedding of `ensureObject` (part_003 lines 21-26). -/
def ensureObject : Option JVal → List (String × JVal)
  | some (.jobj fs) => fs
  | _ => []

/-- Embedding of `normalizeCapability` (part_003 lines 28-40). -/
def normalizeCapability (request : PermissionRequestContext) : Option String :=
  let metaCap :=
    let metadata := request.metadata.getD (.jobj [])
    match metadata with
    | .jobj fs => asString (lookupField fs "type")
    | _ => none
  match request.capability with
  | some c => if c ≠ "" then some c else metaCap
  | none => metaCap

/-- Keep the non-empty strings of an array (`pattern.filter(...)`). -/
def filterPatternStrings (items : List JVal) : List String :=
  items.filterMap fun v =>
    match v with
    | .jstr s => if s.length > 0 then some s else none
    | _ => none

/-- Embedding of `const metaPattern = metadata ? (metadata.pattern ...) : undefined`
(part_003 line 49). -/
def metaPatternVal (metadata : Option JVal) : Option JVal :=
  match metadata with
  | some m => if jsTruthy m then jsGet m "pattern" else none
  | none => none

/-- The metadata fallback of `normalizePatterns` (part_003 lines 49-56). -/
def metaPatterns (metadata : Option JVal) : List String :=
  match metaPatternVal metadata with
  | some (.jarr items) => filterPatternStrings items
  | some (.jstr s) => if s.length > 0 then [s] else ["*"]
  | _ => ["*"]

/-- Embedding of `normalizePatterns` (part_003 lines 42-57). -/
def normalizePatterns (pattern : Option JVal) (metadata : Option JVal) : List String :=
  match pattern with
  | some (.jarr items) => filterPatternStrings items
  | some (.jstr s) => if s.length > 0 then [s] else metaPatterns metadata
  | _ => metaPatterns metadata

/-- The policy object and summary computed by `buildOpenCodePermissionUpdate`
(part_003 lines 59-88), with the final `JSON.stringify` deferred so the merge
can be reasoned about structurally. -/
def buildOpenCodeMergedPolicy (request : PermissionRequestContext)
    (existingPolicy : Option String) : Option (List (String × JVal) × String) :=
  match normalizeCapability request with
  | none => none
  | some capability =>
      if capability = "" then none
      else
        let policy := parsePolicy existingPolicy
        if capability = "bash" then
          let bashPolicy := ensureObject (lookupField policy "bash")
          let patterns := normalizePatterns request.pattern request.metadata
          let bashPolicy2 := patterns.foldl
            (fun bp entry => setField bp (if entry = "" then "*" else entry) (.jstr "allow"))
            bashPolicy
          let policy2 := setField policy "bash" (.jobj bashPolicy2)
          some (policy2, "Allowed bash " ++ String.intercalate ", " patterns)
        else
          some (setField policy capability (.jstr "allow"),
                "Allowed capability " ++ capability)

/-- Embedding of `PermissionPolicyUpdate` (part_003 lines 3-6). -/
structure PermissionPolicyUpdate where
  envDelta : Env
  summary : String
deriving Repr, DecidableEq

/-- Embedding of `buildOpenCodePermissionUpdate` (part_003 lines 59-89).  `procEnvPermission`
is `process.env.OPENCODE_PERMISSION`, the fallback read on line 68. -/
def buildOpenCodePermissionUpdate (request : PermissionRequestContext)
    (currentEnv : Option Env) (procEnvPermission : Option String) :
    Option PermissionPolicyUpdate :=
  let existingPolicy :=
    (match currentEnv with
     | some env => envLookup env "OPENCODE_PERMISSION"
     | none => none) <|> procEnvPermission
  (buildOpenCodeMergedPolicy request existingPolicy).map fun p =>
    { envDelta := [("OPENCODE_PERMISSION", jsonStringify (.jobj p.1))]
      summary := p.2 }

/-! ## Permission-mediated retry loop (src/unnamed/part_002 lines 780-852) -/

/-- Errors thrown by a wrapped engine operation. -/
inductive OpError where
  | permissionRequired (message : String) (engine : String)
  | other (message : String)
deriving Repr, DecidableEq

/-- Embedding of `PermissionDecision.outcome`. -/
inductive DecisionOutcome where
  | allow
  | reject
deriving Repr, DecidableEq

/-- Embedding of `PermissionDecisionScope`. -/
inductive DecisionScope where
  | once
  | always
deriving Repr, DecidableEq

/-- Embedding of `PermissionDecision` (part_002 lines 670-675). -/
structure PermissionDecision where
  outcome : DecisionOutcome
  scope : DecisionScope
  envDelta : Option Env := none
  note : Option String := none
deriving Repr, DecidableEq

/-- Embedding of `mergeEnv` (part_002 lines 794-799). -/
def mergeEnv (base delta : Option Env) : Option Env :=
  match delta with
  | none => base
  | some d => if d.isEmpty then base else some (envSpread (base.getD []) d)

/-- How a `runWithPermissionMediator` invocation ends. -/
inductive MediatedResult (α : Type) where
  | ok (v : α)
  | err (e : OpError)
  | rejectedByUser (message : String)
  | mediatorFailed (message : String)
deriving Repr, DecidableEq

/-- The `while (true)` loop of `runWithPermissionMediator` (part_002 lines
812-851).  `op` receives the 0-based call index (so stateful operations can be
expressed) and the environment of the attempt; the returned `Nat` counts how
often the wrapped operation was invoked.  `fuel` only bounds the recursion:
the wrapper passes `maxAttempts + 1`, which the `attempts` ceiling check keeps
from ever being exhausted. -/
def mediatorLoop {α : Type} (op : Nat → Option Env → Except OpError α)
    (handle : OpError → Option Env → Except String PermissionDecision)
    (maxAttempts : Nat) :
    Nat → Nat → Option Env → Option Env → Nat → Option (MediatedResult α × Nat)
  | 0, _, _, _, _ => none
  | Nat.succ fuel, attempts, baseEnv, attemptEnv, calls =>
      match op calls attemptEnv with
      | .ok v => some (.ok v, calls + 1)
      | .error e =>
          match e with
          | .other m => some (.err (.other m), calls + 1)
          | .permissionRequired msg eng =>
              if maxAttempts ≤ attempts then
                some (.err (.permissionRequired msg eng), calls + 1)
              else
                match handle (.permissionRequired msg eng) attemptEnv with
                | .error m => some (.mediatorFailed m, calls + 1)
                | .ok decision =>
                    if decision.outcome = .reject then
                      some (.rejectedByUser ("Permission request rejected: " ++ msg),
                            calls + 1)
                    else
                      match decision.scope with
                      | .always =>
                          let base2 := mergeEnv baseEnv decision.envDelta
                          mediatorLoop op handle maxAttempts fuel (attempts + 1)
                            base2 base2 (calls + 1)
                      | .once =>
                          mediatorLoop op handle maxAttempts fuel (attempts + 1)
                            baseEnv (mergeEnv baseEnv decision.envDelta) (calls + 1)

/-- Embedding of `runWithPermissionMediator` (part_002 lines 801-852).  `sessionEnv` is the
mediator's stored per-engine environment (`mediator.getSessionEnv`). -/
def runWithPermissionMediator {α : Type} (op : Nat → Option Env → Except OpError α)
    (handle : OpError → Option Env → Except String PermissionDecision)
    (baseEnv sessionEnv : Option Env) (maxRetries : Option Nat) :
    Option (MediatedResult α × Nat) :=
  let base := mergeEnv baseEnv sessionEnv
  let maxAttempts := maxRetries.getD 3
  mediatorLoop op handle maxAttempts (maxAttempts + 1) 0 base base 0

/-! ## OpenCode assistant-text pipeline (src/unnamed/part_002 lines 196-255,
453-466, 515-518) -/

/-- Embedding of `computeTextDelta` (part_002 lines 196-210): returns `(delta, snapshot)`. -/
def computeTextDelta (previous nextValue : String) : String × String :=
  if previous = "" then (nextValue, nextValue)
  else if nextValue = previous then ("", previous)
  else if leadsChars previous.toList nextValue.toList then
    (String.mk (nextValue.toList.drop previous.length), nextValue)
  else (nextValue, nextValue)

/-- Leading newline run length. -/
def countNl : List Char → Nat × List Char
  | '\n' :: rest =>
      let p := countNl rest
      (p.1 + 1, p.2)
  | cs => (0, cs)

/-- Embedding of `text.split(/(\n{2,})/)`: split on maximal runs of at least two newlines,
keeping the separators (JS capture-group semantics). -/
def paraSegs : Nat → List Char → List Char → List String
  | _, [], cur => [String.mk cur.reverse]
  | 0, cs, cur => [String.mk (cur.reverse ++ cs)]
  | Nat.succ f, '\n' :: rest, cur =>
      let p := countNl rest
      if 2 ≤ p.1 + 1 then
        String.mk cur.reverse :: String.mk (List.replicate (p.1 + 1) '\n') ::
          paraSegs f p.2 []
      else paraSegs f rest ('\n' :: cur)
  | Nat.succ f, c :: rest, cur => paraSegs f rest (c :: cur)

/-- Embedding of `text.split(/(\n{2,})/)` on strings. -/
def jsSplitParas (s : String) : List String :=
  paraSegs (s.length + 1) s.toList []

/-- Embedding of `PARAGRAPH_SEPARATOR_PATTERN.test` (part_002 line 36): the string contains
two consecutive newlines. -/
def hasParaSep : List Char → Bool
  | '\n' :: '\n' :: _ => true
  | _ :: rest => hasParaSep rest
  | [] => false

/-- The indexed loop of `removeDuplicateParagraphs` (part_002 lines 229-252);
`odd` tracks `i % 2 = 1`, the result pairs the accumulated output with the
final `lastParagraph.value`.  The first argument is fuel for structural
recursion; called with the segment count it matches the source loop exactly. -/
def rdpLoop : Nat → List String → Bool → String → String → String × String
  | _, [], _, lastP, acc => (acc, lastP)
  | 0, _, _, lastP, acc => (acc, lastP)
  | Nat.succ f, s :: rest, true, lastP, acc => rdpLoop f rest false lastP (acc ++ s)
  | Nat.succ f, s :: rest, false, lastP, acc =>
      let normalized := jsTrim s
      if normalized = "" then rdpLoop f rest true lastP (acc ++ s)
      else if normalized = lastP then
        match rest with
        | sep :: rest2 =>
            if hasParaSep sep.toList then rdpLoop f rest2 false lastP acc
            else rdpLoop f (sep :: rest2) true lastP acc
        | [] => (acc, lastP)
      else rdpLoop f rest true normalized (acc ++ s)

/-- Embedding of `removeDuplicateParagraphs` (part_002 lines 212-255): returns the emitted
text and the updated `lastParagraph.value`. -/
def removeDuplicateParagraphs (text : String) (lastParagraph : String) :
    String × String :=
  if text = "" then (text, lastParagraph)
  else
    match jsSplitParas text with
    | [only] =>
        let normalized := jsTrim only
        if normalized ≠ "" ∧ normalized = lastParagraph then ("", lastParagraph)
        else if normalized ≠ "" then (text, normalized)
        else (text, lastParagraph)
    | segments => rdpLoop segments.length segments false lastParagraph ""

/-- The `case 'text'` arm of `runOpenCode`'s `processLine` (part_002 lines
453-466) together with the emission step (lines 515-518), for
`plainLogs = false` (where `cleanAnsi` is the identity by its first branch).
State is `(lastTextSnapshot, lastParagraph.value)`; the result pairs the new
state with the `onData` payload, if any. -/
def openCodeTextStep (lastSnapshot lastParagraph textValue : String) :
    (String × String) × Option String :=
  if textValue = "" then ((lastSnapshot, lastParagraph), none)
  else
    let ds := computeTextDelta lastSnapshot textValue
    let r := removeDuplicateParagraphs ds.1 lastParagraph
    ((ds.2, r.2), if r.1 = "" then none else some (ensureNl r.1))

/-- Paragraph texts a rendered output displays: the non-separator segments,
trimmed, blanks dropped. -/
def renderedParagraphs (s : String) : List String :=
  (evensOf (jsSplitParas s)).filterMap fun seg =>
    let t := jsTrim seg
    if t = "" then none else some t
where
  evensOf : List String → List String
    | [] => []
    | [x] => [x]
    | x :: _ :: rest => x :: evensOf rest

/-! ## Concrete records used by the claim theorems -/

/-- The print-mode assistant record of the round-trip property. -/
def assistantLine : String :=
  "\x7b\"role\":\"assistant\",\"parts\":[\x7b\"type\":\"text\",\"text\":\"A\"\x7d]\x7d"

/-- First chunk of the split delivery (the split falls inside the JSON text). -/
def assistantChunk1 : String := "\x7b\"role\":\"assistant\",\"parts\":[\x7b\"type\":\"te"

/-- Second chunk of the split delivery, ending in the newline. -/
def assistantChunk2 : String := "xt\",\"text\":\"A\"\x7d]\x7d\n"

/-- The bash permission request of the policy-merge property. -/
def bashRequest : PermissionRequestContext :=
  { engine := "opencode"
    capability := some "bash"
    pattern := some (.jarr [.jstr "ls -la"]) }

/-- The prior wildcard-deny policy of the policy-merge property. -/
def priorDenyPolicy : String := "\x7b\"bash\":\x7b\"*\":\"deny\"\x7d\x7d"

/-! ## Helper lemmas -/

theorem lookupField_setField_self (l : List (String × JVal)) (key : String) (v : JVal) :
    lookupField (setField l key v) key = some v := by
  induction l with
  | nil => simp [setField, lookupField]
  | cons kv rest ih =>
      obtain ⟨a, b⟩ := kv
      by_cases h : a = key
      · simp [setField, lookupField, h]
      · simp [setField, lookupField, h, ih]

theorem lookupField_setField_ne (l : List (String × JVal)) (key k : String) (v : JVal)
    (h : k ≠ key) : lookupField (setField l key v) k = lookupField l k := by
  have hsym : ¬(key = k) := fun hh => h hh.symm
  induction l with
  | nil => simp [setField, lookupField, hsym]
  | cons kv rest ih =>
      obtain ⟨a, b⟩ := kv
      by_cases ha : a = key
      · subst ha
        simp [setField, lookupField, hsym]
      · simp [setField, lookupField, ha, ih]

theorem filterPatternStrings_no_empty (items : List JVal) :
    "" ∉ filterPatternStrings items := by
  intro h
  simp only [filterPatternStrings, List.mem_filterMap] at h
  obtain ⟨v, hmem, hf⟩ := h
  cases v with
  | jnull => exact Option.noConfusion hf
  | jbool b => exact Option.noConfusion hf
  | jnum n => exact Option.noConfusion hf
  | jarr l => exact Option.noConfusion hf
  | jobj l => exact Option.noConfusion hf
  | jstr s =>
      have hf2 : (if s.length > 0 then some s else none) = some ("" : String) := hf
      by_cases hl : s.length > 0
      · rw [if_pos hl] at hf2
        have hs : s = "" := Option.some.inj hf2
        subst hs
        simp at hl
      · rw [if_neg hl] at hf2
        exact Option.noConfusion hf2

theorem star_no_empty : ("" : String) ∉ ["*"] := by decide

theorem metaPatterns_no_empty (m : Option JVal) : "" ∉ metaPatterns m := by
  unfold metaPatterns
  cases hv : metaPatternVal m with
  | none => exact star_no_empty
  | some v =>
      cases v with
      | jarr items => exact filterPatternStrings_no_empty items
      | jstr s =>
          show "" ∉ (if s.length > 0 then [s] else ["*"])
          by_cases hl : s.length > 0
          · rw [if_pos hl]
            intro hmem
            rw [List.mem_singleton] at hmem
            subst hmem
            simp at hl
          · rw [if_neg hl]; exact star_no_empty
      | jnull => exact star_no_empty
      | jbool b => exact star_no_empty
      | jnum n => exact star_no_empty
      | jobj fs => exact star_no_empty

theorem normalizePatterns_no_empty (p m : Option JVal) :
    "" ∉ normalizePatterns p m := by
  unfold normalizePatterns
  cases p with
  | none => exact metaPatterns_no_empty m
  | some v =>
      cases v with
      | jarr items => exact filterPatternStrings_no_empty items
      | jstr s =>
          show "" ∉ (if s.length > 0 then [s] else metaPatterns m)
          by_cases hl : s.length > 0
          · rw [if_pos hl]
            intro hmem
            rw [List.mem_singleton] at hmem
            subst hmem
            simp at hl
          · rw [if_neg hl]; exact metaPatterns_no_empty m
      | jnull => exact metaPatterns_no_empty m
      | jbool b => exact metaPatterns_no_empty m
      | jnum n => exact metaPatterns_no_empty m
      | jobj fs => exact metaPatterns_no_empty m

theorem lookup_foldl_allow (pats : List String) (k : String)
    (hk : k ∉ pats) (hne : "" ∉ pats) (bp : List (String × JVal)) :
    lookupField
      (pats.foldl
        (fun bp entry => setField bp (if entry = "" then "*" else entry) (.jstr "allow"))
        bp) k = lookupField bp k := by
  induction pats generalizing bp with
  | nil => simp
  | cons e rest ih =>
      have hke : k ≠ e := fun h => hk (h ▸ List.mem_cons_self e rest)
      have he : ¬(e = "") := fun h => hne (h ▸ List.mem_cons_self e rest)
      simp only [List.foldl_cons, if_neg he]
      rw [ih (fun h => hk (List.mem_cons_of_mem e h))
            (fun h => hne (List.mem_cons_of_mem e h))]
      exact lookupField_setField_ne bp e k _ hke

theorem resolveOnce_of_some (s : SpawnState) (r : SpawnResult) (o : SpawnOutcome)
    (h : s.outcome = some o) : (resolveOnce s r).outcome = some o := by
  simp [resolveOnce, h]

theorem rejectOnce_of_some (s : SpawnState) (e : SpawnErr) (o : SpawnOutcome)
    (h : s.outcome = some o) : (rejectOnce s e).outcome = some o := by
  simp [rejectOnce, h]

theorem spawnStep_outcome_mono (s : SpawnState) (e : SpawnEvent) (o : SpawnOutcome)
    (h : s.outcome = some o) : (spawnStep s e).outcome = some o := by
  cases e with
  | stdoutData d => exact h
  | stderrData d => exact h
  | timerFire =>
      simp only [spawnStep]
      split
      · exact h
      · split
        · exact h
        · exact h
  | abortFire =>
      simp only [spawnStep]
      split
      · exact h
      · exact h
  | errorEvt err => exact rejectOnce_of_some _ _ _ h
  | closeEvt code =>
      simp only [spawnStep]
      split
      · split
        · exact rejectOnce_of_some _ _ _ h
        · exact resolveOnce_of_some _ _ _ h
      · exact resolveOnce_of_some _ _ _ h

theorem foldl_outcome_mono (post : List SpawnEvent) :
    ∀ (s : SpawnState) (o : SpawnOutcome), s.outcome = some o →
      (post.foldl spawnStep s).outcome = some o := by
  induction post with
  | nil => intro s o h; simpa using h
  | cons e rest ih =>
      intro s o h
      simp only [List.foldl_cons]
      exact ih _ _ (spawnStep_outcome_mono s e o h)

/-! ## Claim theorems -/

/-- C1: the print-mode round-trip fails in `runKimiPrint`.  Delivered as one
chunk, the assistant record yields the single assistant-text event `"A\n"`;
delivered split across two chunks (split inside the JSON text), the handler —
which keeps no cross-chunk buffer — emits the two unparseable fragments as
opaque passthrough lines instead of the single assistant event. -/
theorem kimi_print_split_line_diverges :
    assistantChunk1 ++ assistantChunk2 = assistantLine ++ "\n" ∧
    kimiPrintChunk (assistantLine ++ "\n") = [KimiOut.data "A\n"] ∧
    kimiPrintChunk assistantChunk1 ++ kimiPrintChunk assistantChunk2 =
      [KimiOut.data (assistantChunk1 ++ "\n"), KimiOut.data assistantChunk2] ∧
    kimiPrintChunk assistantChunk1 ++ kimiPrintChunk assistantChunk2 ≠
      [KimiOut.data "A\n"] := by
  refine ⟨by decide, by decide, by decide, by decide⟩

/-- C2: with the default retry ceiling of 3, an operation that throws
`PermissionRequiredError` on every attempt and a mediator that always allows
lead to exactly 4 invocations of the operation, the 4th failure re-raising the
original error. -/
theorem mediator_retry_ceiling (msg eng : String) (d : PermissionDecision)
    (hallow : d.outcome = .allow) :
    runWithPermissionMediator (α := Unit)
      (fun _ _ => .error (.permissionRequired msg eng))
      (fun _ _ => .ok d) none none none
      = some (.err (.permissionRequired msg eng), 4) := by
  obtain ⟨outcome, scope, envDelta, note⟩ := d
  simp only at hallow
  subst hallow
  cases scope <;> rfl

/-- C2 witness: concrete allow-once mediator, ceiling reached after 4 calls. -/
theorem mediator_retry_ceiling_witness :
    (PermissionDecision.mk .allow .once (some [("OPENCODE_PERMISSION", "\x7b\x7d")]) none).outcome
        = .allow ∧
    runWithPermissionMediator (α := Unit)
        (fun _ _ => .error (.permissionRequired "approval needed" "opencode"))
        (fun _ _ => .ok (PermissionDecision.mk .allow .once
          (some [("OPENCODE_PERMISSION", "\x7b\x7d")]) none))
        none none none
      = some (.err (.permissionRequired "approval needed" "opencode"), 4) :=
  ⟨rfl, mediator_retry_ceiling "approval needed" "opencode" _ rfl⟩

/-- C3: merging a bash allow grant for `["ls -la"]` into the prior policy
`{"bash":{"*":"deny"}}` yields `bash["ls -la"]="allow"` with `bash["*"]`
still `"deny"`; and in general, for any bash request, every key of the prior
bash policy that is not among the request's normalized patterns keeps its
previous verdict. -/
theorem opencode_policy_merge_preserves_prior :
    (buildOpenCodePermissionUpdate bashRequest
        (some [("OPENCODE_PERMISSION", priorDenyPolicy)]) none
      = some { envDelta :=
                 [("OPENCODE_PERMISSION",
                   "\x7b\"bash\":\x7b\"*\":\"deny\",\"ls -la\":\"allow\"\x7d\x7d")]
               summary := "Allowed bash ls -la" }) ∧
    ∀ (request : PermissionRequestContext) (existing : Option String) (k : String)
      (p : List (String × JVal)) (summary : String),
      normalizeCapability request = some "bash" →
      k ∉ normalizePatterns request.pattern request.metadata →
      buildOpenCodeMergedPolicy request existing = some (p, summary) →
      lookupField (ensureObject (lookupField p "bash")) k
        = lookupField (ensureObject (lookupField (parsePolicy existing) "bash")) k := by
  constructor
  · rfl
  · intro request existing k p summary hcap hk hres
    have hstep :
        buildOpenCodeMergedPolicy request existing =
          some (setField (parsePolicy existing) "bash"
                    (.jobj ((normalizePatterns request.pattern request.metadata).foldl
                      (fun bp entry =>
                        setField bp (if entry = "" then "*" else entry) (.jstr "allow"))
                      (ensureObject (lookupField (parsePolicy existing) "bash")))),
                "Allowed bash " ++
                  String.intercalate ", "
                    (normalizePatterns request.pattern request.metadata)) := by
      unfold buildOpenCodeMergedPolicy
      rw [hcap]
      exact rfl
    rw [hstep] at hres
    simp only [Option.some.injEq, Prod.mk.injEq] at hres
    obtain ⟨hp, _⟩ := hres
    subst hp
    rw [lookupField_setField_self]
    exact lookup_foldl_allow _ k hk (normalizePatterns_no_empty _ _) _

/-- C3 witness: the wildcard key is outside the requested patterns and its
verdict survives the merge. -/
theorem opencode_policy_merge_witness :
    normalizeCapability bashRequest = some "bash" ∧
    "*" ∉ normalizePatterns bashRequest.pattern bashRequest.metadata ∧
    lookupField
        (ensureObject (lookupField
          [("bash", JVal.jobj [("*", JVal.jstr "deny"), ("ls -la", JVal.jstr "allow")])]
          "bash")) "*"
      = lookupField
          (ensureObject (lookupField (parsePolicy (some priorDenyPolicy)) "bash")) "*" :=
  ⟨by decide, by decide,
    opencode_policy_merge_preserves_prior.2 bashRequest (some priorDenyPolicy) "*"
      [("bash", JVal.jobj [("*", JVal.jstr "deny"), ("ls -la", JVal.jstr "allow")])]
      "Allowed bash ls -la" (by decide) (by decide) rfl⟩

/-- C5: a pending timeout firing before the child's close event makes the
promise reject with an error named `TimeoutError` (it never resolves), and the
handle is removed from the live-process registry on settlement. -/
theorem spawn_timeout_rejects (t : Nat) (ht : 0 < t) (code : Option Int) :
    (runSpawn (some t) [.timerFire, .closeEvt code]).outcome
        = some (.rejected
            { name := "TimeoutError"
              message := "Process timed out after " ++ toString t ++ "ms" }) ∧
    (runSpawn (some t) [.timerFire, .closeEvt code]).inRegistry = false := by
  simp [runSpawn, spawnInit, spawnStep, resolveOnce, rejectOnce, ht]

/-- C5 witness: 100 ms timeout, child close arriving afterwards. -/
theorem spawn_timeout_rejects_witness :
    0 < 100 ∧
    ((runSpawn (some 100) [.timerFire, .closeEvt (some 1)]).outcome
        = some (.rejected
            { name := "TimeoutError"
              message := "Process timed out after " ++ toString 100 ++ "ms" }) ∧
      (runSpawn (some 100) [.timerFire, .closeEvt (some 1)]).inRegistry = false) :=
  ⟨by decide, spawn_timeout_rejects 100 (by decide) (some 1)⟩

/-- C6: the promise of `spawnProcess` settles at most once: once any event of
a trace has settled it, no further events — in any order and combination —
change the settlement. -/
theorem spawn_settles_once (cfg : Option Nat) (pre post : List SpawnEvent)
    (o : SpawnOutcome) (h : (runSpawn cfg pre).outcome = some o) :
    (runSpawn cfg (pre ++ post)).outcome = some o := by
  unfold runSpawn at h ⊢
  rw [List.foldl_append]
  exact foldl_outcome_mono post _ o h

/-- C6 witness: a late error event cannot displace an earlier resolution. -/
theorem spawn_settles_once_witness :
    (runSpawn none [SpawnEvent.closeEvt none]).outcome
        = some (.resolved { exitCode := 0, stdout := "", stderr := "" }) ∧
    (runSpawn none ([SpawnEvent.closeEvt none] ++
        [SpawnEvent.errorEvt { name := "Error", message := "boom" }])).outcome
      = some (.resolved { exitCode := 0, stdout := "", stderr := "" }) :=
  ⟨by decide,
    spawn_settles_once none [SpawnEvent.closeEvt none]
      [SpawnEvent.errorEvt { name := "Error", message := "boom" }] _ (by decide)⟩

/-- C7: a print-mode `_usage` record with
`token_count = {input:12, output:5, cached:2}` produces exactly one usage
snapshot `{tokensIn:12, tokensOut:5, cached:2}`; a `_usage` record with no
recognizable token field produces none; and `total`, first in the probe order,
wins over `input` when present. -/
theorem usage_snapshot_extraction :
    kimiPrintChunk
        "\x7b\"role\":\"_usage\",\"token_count\":\x7b\"input\":12,\"output\":5,\"cached\":2\x7d\x7d\n"
      = [KimiOut.usage { tokensIn := some 12, tokensOut := some 5, cached := some 2 }] ∧
    kimiPrintChunk "\x7b\"role\":\"_usage\"\x7d\n" = [] ∧
    emitUsageSnapshot
        (some (.jobj [("token_count", .jobj [("total", .jnum 20), ("input", .jnum 12)])]))
      = [{ tokensIn := some 20 }] := by
  refine ⟨by decide, by decide, by decide⟩

/-- C8: in wire mode, an inbound `{method:"request", id:"r1",
params:{title:"X"}}` line received while the child's stdin is open produces
exactly one outbound JSON-RPC approval response for `"r1"` on stdin and
exactly one status line mentioning `"X"`. -/
theorem wire_auto_approval :
    wireProcessLine "run-1" true {}
        "\x7b\"method\":\"request\",\"id\":\"r1\",\"params\":\x7b\"title\":\"X\"\x7d\x7d"
      = { dataOut := ["[GRAY]Auto-approved: X\n"]
          errOut := []
          stdinWrites :=
            ["\x7b\"jsonrpc\":\"2.0\",\"id\":\"r1\",\"result\":\x7b\"approved\":true,\"action\":\"approve\"\x7d\x7d\n"]
          usageOut := []
          toolNames := [] } ∧
    containsSub "[GRAY]Auto-approved: X\n" "X" = true := by
  refine ⟨by decide, by decide⟩

/-- C9: feeding the cumulative snapshots `"Hello"` then `"Hello\n\nHello"`
through the delta computation and duplicate-paragraph suppression renders
exactly one `"Hello"` paragraph. -/
theorem duplicate_paragraph_suppression :
    (openCodeTextStep "" "" "Hello").2 = some "Hello\n" ∧
    (openCodeTextStep (openCodeTextStep "" "" "Hello").1.1
        (openCodeTextStep "" "" "Hello").1.2 "Hello\n\nHello").2 = some "\n\n" ∧
    renderedParagraphs
        (((openCodeTextStep "" "" "Hello").2.getD "") ++
          ((openCodeTextStep (openCodeTextStep "" "" "Hello").1.1
              (openCodeTextStep "" "" "Hello").1.2 "Hello\n\nHello").2.getD ""))
      = ["Hello"] := by
  refine ⟨by decide, by decide, by decide⟩

/-- C10: a close event reporting a `null` exit code while no timeout is
pending resolves the promise successfully with `exitCode = 0` — at the
`SpawnResult` interface, signal-induced termination is indistinguishable from
a successful zero exit — and removes the handle from the registry. -/
theorem spawn_null_close_resolves_zero (s : SpawnState)
    (hunsettled : s.outcome = none) (htime : s.timedOut = false) :
    (spawnStep s (.closeEvt none)).outcome
        = some (.resolved
            { exitCode := 0
              stdout := String.join s.stdoutChunks
              stderr := String.join s.stderrChunks }) ∧
    (spawnStep s (.closeEvt none)).inRegistry = false := by
  simp [spawnStep, resolveOnce, htime, hunsettled]

/-- C10 witness: fresh state, signal-terminated child (`code = null`). -/
theorem spawn_null_close_resolves_zero_witness :
    (spawnInit none).outcome = none ∧ (spawnInit none).timedOut = false ∧
    ((spawnStep (spawnInit none) (.closeEvt none)).outcome
        = some (.resolved
            { exitCode := 0
              stdout := String.join (spawnInit none).stdoutChunks
              stderr := String.join (spawnInit none).stderrChunks }) ∧
      (spawnStep (spawnInit none) (.closeEvt none)).inRegistry = false) :=
  ⟨rfl, rfl, spawn_null_close_resolves_zero (spawnInit none) rfl rfl⟩

end CodeMachine
